import Mathlib

/-
Shallow embedding of the trex Redis client library (src/trex), covering the
parts of the code that the specification's claims are about:

  * value coercion on the receive path        (protocols.py, tryConvertData)
  * the per-reply processing loop             (protocols.py, dataReceived)
  * transaction bookkeeping                   (api.py, _clear_txstate,
                                               _commit_check, watch, multi,
                                               discard, commit, unwatch)
  * command encoding and the send path        (api.py, execute_command)
  * pipelining                                (api.py, pipeline,
                                               execute_pipeline)
  * the pool facade                           (connections.py,
                                               ConnectionHandler.__getattr__)
  * consistent-hash sharding                  (connections.py, _findhash,
                                               ShardedConnectionHandler._wrap,
                                               HashRing)

External collaborators (hiredis, zlib.crc32, codecs, Twisted's reactor) are
modelled as parameters; everything written in the repository itself is
translated directly.
-/

namespace Trex

/-- A Python value as it appears on the reply path.  `bytes` is a Python 2
`str`, `text` a Python 2 `unicode`.  The numeric value of a float is not
modelled: `float s` records the literal accepted by Python's `float()`. -/
inductive PyVal where
  | int (i : Int)
  | float (s : String)
  | bytes (s : String)
  | text (s : String)
  | list (l : List PyVal)
  | none

/-- The exception kinds raised by the library (exceptions.py). -/
inductive RErr where
  | connectionError (msg : String)
  | invalidData (msg : String)
  | redisError (msg : String)
  | watchError (msg : String)
  | responseError (msg : String)
  deriving DecidableEq

/-- protocols.py: `_NUM_FIRST_CHARS = frozenset(string.digits + "+-.")`. -/
def NUM_FIRST_CHARS : List Char := "0123456789+-.".toList

/-- Model of Python 2 `int(s)` on a `str`: optional surrounding spaces, an
optional single sign, then one or more decimal digits; anything else raises
`ValueError` (`Option.none` here). -/
def pyInt? (s : String) : Option Int :=
  let t := (((s.toList.dropWhile (· = ' ')).reverse.dropWhile (· = ' ')).reverse)
  match t with
  | [] => Option.none
  | c :: rest =>
    let sign : Int := if c = '-' then -1 else 1
    let digits := if c = '-' || c = '+' then rest else c :: rest
    if digits ≠ [] ∧ digits.all Char.isDigit then
      Option.some (sign * (digits.foldl (fun a d => 10 * a + ((d.toNat - 48 : Nat) : Int)) 0))
    else Option.none

/-- `l ≠ [] ∧ all digits`, as a Bool. -/
def allDigits1 (l : List Char) : Bool :=
  !l.isEmpty && l.all Char.isDigit

/-- Acceptance of the exponent part of a Python float literal: empty, or
`e`/`E`, an optional sign, and one or more digits. -/
def expPartOk (l : List Char) : Bool :=
  match l with
  | [] => true
  | c :: rest =>
    (c = 'e' || c = 'E') &&
      (allDigits1 (match rest with
        | [] => []
        | d :: r => if d = '+' || d = '-' then r else d :: r))

/-- Acceptance of an unsigned Python float body: `digits [. digits] [exp]` or
`. digits [exp]`, with at least one digit in the mantissa. -/
def mantExpOk (l : List Char) : Bool :=
  let d1 := l.takeWhile Char.isDigit
  let r1 := l.dropWhile Char.isDigit
  match r1 with
  | '.' :: r2 =>
    let d2 := r2.takeWhile Char.isDigit
    let r3 := r2.dropWhile Char.isDigit
    (!d1.isEmpty || !d2.isEmpty) && expPartOk r3
  | _ => !d1.isEmpty && expPartOk r1

/-- Model of Python `float(s)` acceptance: optional surrounding spaces, an
optional sign, then a float body or (case-insensitively) `inf`, `infinity`
or `nan`. -/
def pyFloatAccepts (s : String) : Bool :=
  let t := (((s.toList.dropWhile (· = ' ')).reverse.dropWhile (· = ' ')).reverse)
  let t := match t with
    | [] => ([] : List Char)
    | c :: r => if c = '+' || c = '-' then r else c :: r
  mantExpOk t ||
    (t.map Char.toLower = ['i', 'n', 'f'] ||
     t.map Char.toLower = ['i', 'n', 'f', 'i', 'n', 'i', 't', 'y'] ||
     t.map Char.toLower = ['n', 'a', 'n'])

/-- The numeric-coercion attempt of `tryConvertData`:

    el = None
    if data and data[0] in _NUM_FIRST_CHARS:
        try:
            el = int(data) if data.find('.') == -1 else float(data)
        except ValueError:
            pass
-/
def numAttempt (s : String) : Option PyVal :=
  match s.toList with
  | [] => Option.none
  | c :: _ =>
    if NUM_FIRST_CHARS.contains c then
      if s.toList.contains '.' then
        if pyFloatAccepts s then Option.some (PyVal.float s) else Option.none
      else
        (pyInt? s).map PyVal.int
    else Option.none

/-- The fallback of `tryConvertData` when no number was produced:

    el = data
    if self.charset is not None:
        try:
            el = data.decode(self.charset)
        except UnicodeDecodeError:
            pass

`dec` models `data.decode(charset)`: `Option.some` on success, `Option.none`
for a `UnicodeDecodeError`. -/
def convFallback (charset : Option String) (dec : String → Option String)
    (s : String) : PyVal :=
  match charset with
  | Option.none => PyVal.bytes s
  | Option.some _ =>
    match dec s with
    | Option.some t => PyVal.text t
    | Option.none => PyVal.bytes s

/-- protocols.py `RedisProtocol.tryConvertData`.  A value that is not a
Python 2 `str` is returned unchanged (`if not isinstance(data, str)`). -/
def tryConvertData (charset : Option String) (dec : String → Option String) :
    PyVal → PyVal
  | PyVal.bytes s =>
    match numAttempt s with
    | Option.some v => v
    | Option.none => convFallback charset dec s
  | other => other

/-- Whether a value is a coerced number (int or float). -/
def isNumericVal : PyVal → Bool
  | PyVal.int _ => true
  | PyVal.float _ => true
  | _ => false

/-- Whether the numeric-coercion guard of `tryConvertData` holds: the string
is non-empty and its first character is a digit, `+`, `-` or `.`. -/
def firstCharNum (s : String) : Bool :=
  match s.toList with
  | [] => false
  | c :: _ => NUM_FIRST_CHARS.contains c


theorem numAttempt_some (s : String) (v : PyVal) (h : numAttempt s = Option.some v) :
    isNumericVal v = true ∧ firstCharNum s = true := by
  unfold numAttempt at h
  split at h
  · exact absurd h (by simp)
  · next c cs heq =>
    split at h
    · next h1 =>
      constructor
      · split at h
        · split at h
          · cases h; rfl
          · exact absurd h (by simp)
        · cases hi : pyInt? s with
          | none => rw [hi] at h; exact absurd h (by simp)
          | some i => rw [hi] at h; cases h; rfl
      · unfold firstCharNum
        rw [heq]
        exact h1
    · exact absurd h (by simp)

theorem numAttempt_float (s : String) (f : String)
    (h : numAttempt s = Option.some (PyVal.float f)) :
    s.toList.contains '.' = true := by
  unfold numAttempt at h
  split at h
  · exact absurd h (by simp)
  · split at h
    · split at h
      · assumption
      · cases hi : pyInt? s with
        | none => rw [hi] at h; exact absurd h (by simp)
        | some i => rw [hi] at h; exact absurd h (by simp)
    · exact absurd h (by simp)

theorem numAttempt_int (s : String) (i : Int)
    (h : numAttempt s = Option.some (PyVal.int i)) :
    s.toList.contains '.' = false := by
  unfold numAttempt at h
  split at h
  · exact absurd h (by simp)
  · split at h
    · split at h
      · split at h
        · exact absurd h (by simp)
        · exact absurd h (by simp)
      · next h2 => exact Bool.not_eq_true _ ▸ by simpa using h2
    · exact absurd h (by simp)

theorem numAttempt_of_int (s : String) (i : Int) (h1 : firstCharNum s = true)
    (h2 : s.toList.contains '.' = false) (h3 : pyInt? s = Option.some i) :
    numAttempt s = Option.some (PyVal.int i) := by
  unfold firstCharNum at h1
  unfold numAttempt
  split at h1
  · exact absurd h1 (by simp)
  · next c cs heq =>
    rw [heq, ← heq, h2, h3]
    simp only [List.contains] at h1
    simp [List.mem_of_elem_eq_true h1]

theorem numAttempt_of_float (s : String) (h1 : firstCharNum s = true)
    (h2 : s.toList.contains '.' = true) (h3 : pyFloatAccepts s = true) :
    numAttempt s = Option.some (PyVal.float s) := by
  unfold firstCharNum at h1
  unfold numAttempt
  split at h1
  · exact absurd h1 (by simp)
  · next c cs heq =>
    rw [heq, ← heq, h2, h3]
    simp only [List.contains] at h1
    simp [List.mem_of_elem_eq_true h1]


theorem isNumericVal_convFallback (charset : Option String)
    (dec : String → Option String) (s : String) :
    isNumericVal (convFallback charset dec s) = false := by
  unfold convFallback
  cases charset with
  | none => rfl
  | some cn =>
    cases dec s with
    | none => rfl
    | some t => rfl

theorem tryConvertData_eq (charset : Option String) (dec : String → Option String)
    (s : String) :
    tryConvertData charset dec (PyVal.bytes s) =
      (match numAttempt s with
       | Option.some v => v
       | Option.none => convFallback charset dec s) := rfl

/-- C7: on the receive path, value coercion attempts a numeric conversion
iff the bulk string is non-empty and starts with a digit, `+`, `-` or `.`;
integer parsing is used iff the string has no `.`, float parsing otherwise;
`+inf`, `-inf` and `NaN` are never coerced to numbers; when no number is
produced and the charset is non-nil the string is decoded, keeping the raw
bytes if decoding fails (and kept raw when the charset is nil). -/
theorem trex_c7 (charset : Option String) (dec : String → Option String) (s : String) :
    (isNumericVal (tryConvertData charset dec (PyVal.bytes s)) = true →
       firstCharNum s = true)
    ∧ (s.toList.contains '.' = false →
       ∀ f, tryConvertData charset dec (PyVal.bytes s) ≠ PyVal.float f)
    ∧ (s.toList.contains '.' = true →
       ∀ i, tryConvertData charset dec (PyVal.bytes s) ≠ PyVal.int i)
    ∧ (∀ i, firstCharNum s = true → s.toList.contains '.' = false →
       pyInt? s = Option.some i →
       tryConvertData charset dec (PyVal.bytes s) = PyVal.int i)
    ∧ (firstCharNum s = true → s.toList.contains '.' = true →
       pyFloatAccepts s = true →
       tryConvertData charset dec (PyVal.bytes s) = PyVal.float s)
    ∧ (isNumericVal (tryConvertData charset dec (PyVal.bytes s)) = false →
       (charset = Option.none →
          tryConvertData charset dec (PyVal.bytes s) = PyVal.bytes s)
       ∧ (∀ cn, charset = Option.some cn →
          tryConvertData charset dec (PyVal.bytes s) =
            (match dec s with
             | Option.some t => PyVal.text t
             | Option.none => PyVal.bytes s)))
    ∧ (isNumericVal (tryConvertData charset dec (PyVal.bytes "+inf")) = false
       ∧ isNumericVal (tryConvertData charset dec (PyVal.bytes "-inf")) = false
       ∧ isNumericVal (tryConvertData charset dec (PyVal.bytes "NaN")) = false) := by
  refine ⟨?_, ?_, ?_, ?_, ?_, ?_, ?_, ?_, ?_⟩
  · intro h
    rw [tryConvertData_eq] at h
    cases hna : numAttempt s with
    | none =>
      rw [hna] at h
      have h2 : isNumericVal (convFallback charset dec s) = true := h
      rw [isNumericVal_convFallback] at h2
      cases h2
    | some v => exact (numAttempt_some s v hna).2
  · intro hdot f hEq
    rw [tryConvertData_eq] at hEq
    cases hna : numAttempt s with
    | none =>
      rw [hna] at hEq
      have h2 : convFallback charset dec s = PyVal.float f := hEq
      have h3 := isNumericVal_convFallback charset dec s
      rw [h2] at h3
      cases h3
    | some v =>
      rw [hna] at hEq
      have h2 : v = PyVal.float f := hEq
      rw [h2] at hna
      rw [numAttempt_float s f hna] at hdot
      cases hdot
  · intro hdot i hEq
    rw [tryConvertData_eq] at hEq
    cases hna : numAttempt s with
    | none =>
      rw [hna] at hEq
      have h2 : convFallback charset dec s = PyVal.int i := hEq
      have h3 := isNumericVal_convFallback charset dec s
      rw [h2] at h3
      cases h3
    | some v =>
      rw [hna] at hEq
      have h2 : v = PyVal.int i := hEq
      rw [h2] at hna
      rw [numAttempt_int s i hna] at hdot
      cases hdot
  · intro i h1 h2 h3
    rw [tryConvertData_eq, numAttempt_of_int s i h1 h2 h3]
  · intro h1 h2 h3
    rw [tryConvertData_eq, numAttempt_of_float s h1 h2 h3]
  · intro h
    constructor
    · intro hc
      rw [tryConvertData_eq] at h ⊢
      cases hna : numAttempt s with
      | none => rw [hc]; rfl
      | some v =>
        rw [hna] at h
        have h2 : isNumericVal v = false := h
        rw [(numAttempt_some s v hna).1] at h2
        cases h2
    · intro cn hc
      rw [tryConvertData_eq] at h ⊢
      cases hna : numAttempt s with
      | none => rw [hc]; rfl
      | some v =>
        rw [hna] at h
        have h2 : isNumericVal v = false := h
        rw [(numAttempt_some s v hna).1] at h2
        cases h2
  · have h2 : tryConvertData charset dec (PyVal.bytes "+inf") =
        convFallback charset dec "+inf" := rfl
    rw [h2, isNumericVal_convFallback]
  · have h2 : tryConvertData charset dec (PyVal.bytes "-inf") =
        convFallback charset dec "-inf" := rfl
    rw [h2, isNumericVal_convFallback]
  · have h2 : tryConvertData charset dec (PyVal.bytes "NaN") =
        convFallback charset dec "NaN" := rfl
    rw [h2, isNumericVal_convFallback]

/-- Witness for C7 at concrete inputs: with charset utf-8 and an identity
decoder, the string NaN is not coerced and comes back as decoded text. -/
theorem trex_c7_witness :
    tryConvertData (Option.some "utf-8") Option.some (PyVal.bytes "NaN") =
      (match Option.some "NaN" with
       | Option.some t => PyVal.text t
       | Option.none => PyVal.bytes "NaN") :=
  ((trex_c7 (Option.some "utf-8") Option.some "NaN").2.2.2.2.2.1
    (by rfl)).2 "utf-8" rfl



/-- The only two callbacks the code ever stores in `unwatch_cc` and
`commit_cc`: `lambda: ()` and `self._clear_txstate`. -/
inductive CC where
  | noop
  | clearTx
  deriving DecidableEq

/-- The state of one `RedisProtocol` connection (protocols.py `__init__`
plus the `connected` flag of the transport layer).  Post-processing
callbacks are stored as opaque identifiers (`Option Nat`, `Option.none` for
a missing or non-callable entry); an environment maps identifiers to
functions where one is applied.  The reply queue is Twisted's
`DeferredQueue`: `replyWaiting` is the FIFO of outstanding `get()` promises
(by identifier), `replyPending` the buffered values. -/
structure Conn where
  connected : Nat
  transactions : Int
  inTransaction : Bool
  unwatch_cc : CC
  commit_cc : CC
  post_proc : List (Option Nat)
  pipelining : Bool
  pipelined_commands : List String
  pipelined_replies : List Nat
  replyWaiting : List Nat
  replyPending : List PyVal

/-- A fresh protocol object: `__init__` state; `connected` is 0 until
`connectionMade` runs. -/
def Conn.init : Conn :=
  { connected := 0, transactions := 0, inTransaction := false,
    unwatch_cc := CC.noop, commit_cc := CC.noop, post_proc := [],
    pipelining := false, pipelined_commands := [], pipelined_replies := [],
    replyWaiting := [], replyPending := [] }

/-- The pool-visible system state: the one modelled connection plus the
factory's free-connection channel (`factory.connectionQueue`, a
`DeferredQueue` holding connection references).  The modelled connection's
identifier is `selfId`. -/
structure Sys where
  conn : Conn
  freeQueue : List Nat

/-- Identifier of the modelled connection in the free-connection queue. -/
def selfId : Nat := 0

/-- api.py `RedisApiMixin._clear_txstate`:

    if self.inTransaction:
        self.inTransaction = False
        self.factory.connectionQueue.put(self)
-/
def clear_txstate (s : Sys) : Sys :=
  if s.conn.inTransaction then
    { conn := { s.conn with inTransaction := false },
      freeQueue := s.freeQueue ++ [selfId] }
  else s

/-- Run a stored transaction callback. -/
def CC.run : CC → Sys → Sys
  | CC.noop, s => s
  | CC.clearTx, s => clear_txstate s

/-- Twisted `DeferredQueue.put`: if a `get()` promise is waiting, the first
waiter fires with the value (returned as `some (promise, value)`);
otherwise the value is buffered. -/
def replyQueue_put (s : Sys) (v : PyVal) : Sys × Option (Nat × PyVal) :=
  match s.conn.replyWaiting with
  | [] =>
    ({ s with conn := { s.conn with replyPending := s.conn.replyPending ++ [v] } },
     Option.none)
  | w :: ws =>
    ({ s with conn := { s.conn with replyWaiting := ws } }, Option.some (w, v))

/-- Twisted `DeferredQueue.get`: a buffered value fires the new promise at
once; otherwise the promise (identified by `np`) joins the waiting FIFO. -/
def replyQueue_get (np : Nat) (c : Conn) : Conn × Option PyVal :=
  match c.replyPending with
  | v :: rest => ({ c with replyPending := rest }, Option.some v)
  | [] => ({ c with replyWaiting := c.replyWaiting ++ [np] }, Option.none)

/-- Python equality of a reply against a string literal (`res == "QUEUED"`):
true for an equal `str` or `unicode`, false for every other value. -/
def pyEqStr : PyVal → String → Bool
  | PyVal.bytes s, t => s == t
  | PyVal.text s, t => s == t
  | _, _ => false

/-- protocols.py `RedisProtocol.handleTransactionData`, acting on the system
state (its `commit_cc()` call can return the connection to the pool).  `env`
interprets the stored post-processing callback identifiers. -/
def handleTransactionData (env : Nat → PyVal → PyVal) (s : Sys) (reply : PyVal) :
    Sys × PyVal :=
  match reply with
  | PyVal.list l =>
    if s.conn.inTransaction then
      let s :=
        if s.conn.transactions > 0 then
          { s with conn := { s.conn with transactions := s.conn.transactions - l.length } }
        else s
      let s := if s.conn.transactions = 0 then s.conn.commit_cc.run s else s
      if s.conn.inTransaction then
        let f := s.conn.post_proc.drop 1
        let reply :=
          match f with
          | [Option.some i] => env i (PyVal.list l)
          | _ => PyVal.list l
        ({ s with conn := { s.conn with post_proc := [] } }, reply)
      else
        let pairs := (s.conn.post_proc.drop 1).zip l
        let reply :=
          if pairs.isEmpty then PyVal.list l
          else PyVal.list (pairs.map (fun p =>
            match p.1 with
            | Option.some i => env i p.2
            | Option.none => p.2))
        ({ s with conn := { s.conn with post_proc := [] } }, reply)
    else (s, reply)
  | _ => (s, reply)

/-- The conversion step at the top of the `dataReceived` loop body:

    if isinstance(res, basestring):
        res = self.tryConvertData(res)
    elif isinstance(res, list):
        res = map(self.tryConvertData, res)
-/
def convertReply (charset : Option String) (dec : String → Option String) :
    PyVal → PyVal
  | PyVal.bytes b => tryConvertData charset dec (PyVal.bytes b)
  | PyVal.text t => tryConvertData charset dec (PyVal.text t)
  | PyVal.list l => PyVal.list (l.map (tryConvertData charset dec))
  | other => other

/-- One iteration of the `dataReceived` while-loop for a parsed reply `res`
(the incremental hiredis parse itself is external):

    if res == "QUEUED":
        self.transactions += 1
    else:
        res = self.handleTransactionData(res)
    self.replyReceived(res)

`replyReceived` puts the reply on the reply queue; the second component is
the promise the put completed, if any. -/
def processReply (charset : Option String) (dec : String → Option String)
    (env : Nat → PyVal → PyVal) (s : Sys) (res : PyVal) :
    Sys × Option (Nat × PyVal) :=
  let res := convertReply charset dec res
  if pyEqStr res "QUEUED" then
    let s := { s with conn := { s.conn with transactions := s.conn.transactions + 1 } }
    replyQueue_put s res
  else
    let (s, res) := handleTransactionData env s res
    replyQueue_put s res


/-- C1 (amended): when a parsed reply equals the literal status QUEUED, the
receive loop increments the transactions counter, but it still hands the
QUEUED reply to `replyReceived`, so the head pending promise of the reply
queue IS completed with that reply. -/
theorem trex_c1 (charset : Option String) (dec : String → Option String)
    (env : Nat → PyVal → PyVal) (s : Sys) (w : Nat) (ws : List Nat) (res : PyVal)
    (hw : s.conn.replyWaiting = w :: ws)
    (hq : pyEqStr (convertReply charset dec res) "QUEUED" = true) :
    processReply charset dec env s res =
      ({ s with conn := { s.conn with
           transactions := s.conn.transactions + 1,
           replyWaiting := ws } },
       Option.some (w, convertReply charset dec res)) := by
  simp only [processReply, replyQueue_put]
  rw [hq]
  simp [hw]

def qSys : Sys :=
  { conn := { Conn.init with
      connected := 1,
      inTransaction := true,
      replyWaiting := [7] },
    freeQueue := [] }

/-- C1 counterexample: with one caller waiting on the reply queue, a QUEUED
reply increments `transactions` AND resolves that caller's promise with the
(decoded) QUEUED status, contradicting the claim that no promise is
completed with QUEUED. -/
theorem trex_c1_counterexample :
    (processReply (Option.some "utf-8") Option.some (fun _ v => v) qSys
        (PyVal.bytes "QUEUED")).2 = Option.some (7, PyVal.text "QUEUED")
    ∧ (processReply (Option.some "utf-8") Option.some (fun _ v => v) qSys
        (PyVal.bytes "QUEUED")).1.conn.transactions = 1 :=
  ⟨rfl, rfl⟩

/-- Witness for the amended C1 on a concrete state. -/
theorem trex_c1_witness :
    processReply (Option.some "utf-8") Option.some (fun _ v => v) qSys
        (PyVal.bytes "QUEUED") =
      ({ qSys with conn := { qSys.conn with
           transactions := qSys.conn.transactions + 1,
           replyWaiting := [] } },
       Option.some (7, convertReply (Option.some "utf-8") Option.some
         (PyVal.bytes "QUEUED"))) :=
  trex_c1 (Option.some "utf-8") Option.some (fun _ v => v) qSys 7 [] (PyVal.bytes "QUEUED")
    rfl rfl



/-- An argument passed to `execute_command`, by its Python runtime type.
`str` is used as-is; `uni` is encoded through the configured charset;
`flt` carries the fixed-point rendering produced by `format(s, "f")` (the
float formatter itself is external); `other` carries `str(s)`. -/
inductive Arg where
  | str (s : String)
  | uni (s : String)
  | flt (fixed : String)
  | other (rep : String)

/-- The per-argument byte-string production of `execute_command`.  `enc`
models `s.encode(charset, errors)`: `Option.none` for a
`UnicodeEncodeError`. -/
def encodeArg (charset : Option String) (enc : String → Option String) :
    Arg → Except RErr String
  | Arg.str s => Except.ok s
  | Arg.uni s =>
    match charset with
    | Option.none => Except.error (RErr.invalidData "Encoding charset was not specified")
    | Option.some _ =>
      match enc s with
      | Option.some b => Except.ok b
      | Option.none => Except.error (RErr.invalidData "Error encoding unicode value")
  | Arg.flt f => Except.ok f
  | Arg.other r => Except.ok r

/-- api.py: `cmd_template = "$%s\r\n%s\r\n"` applied to one encoded
argument. -/
def cmd_template (cmd : String) : String :=
  "$" ++ toString cmd.length ++ "\r\n" ++ cmd ++ "\r\n"

/-- Python `"".join(...)`. -/
def joinStr : List String → String
  | [] => ""
  | x :: rest => x ++ joinStr rest

/-- The frame-dispatch step of `execute_command`: when pipelining, buffer
the command; otherwise write it to the transport (the second component
lists the transport writes performed). -/
def bufferOrWrite (c : Conn) (command : String) : Conn × List String :=
  if c.pipelining then
    ({ c with pipelined_commands := c.pipelined_commands ++ [command] },
     ([] : List String))
  else (c, [command])

/-- The pipeline-tracking step of `execute_command`: when pipelining, the
new reply promise is appended to `pipelined_replies`. -/
def trackPipelinedReply (np : Nat) (c : Conn) : Conn :=
  if c.pipelining then { c with pipelined_replies := c.pipelined_replies ++ [np] }
  else c

/-- The post-proc step of `execute_command`: in transaction mode the
`post_proc` keyword is stored positionally (in normal mode the callback is
chained on the returned promise, which does not change connection state). -/
def storePostProc (pp : Option Nat) (c : Conn) : Conn :=
  if c.inTransaction then { c with post_proc := c.post_proc ++ [pp] } else c

/-- What `execute_command` produced: the updated connection, the transport
writes it performed (in order), the identifier of the reply promise it
created, and the buffered value that promise fired with at once, if the
reply queue had one pending. -/
structure SendOut where
  conn : Conn
  writes : List String
  promise : Nat
  fired : Option PyVal

/-- api.py `RedisApiMixin.execute_command`:  raise ConnectionError when the
socket is down; encode every argument; build
`command = "*%s\r\n%s" % (len(cmds), "".join(cmds))`; buffer the frame when
pipelining, write it otherwise; register a reply promise (the fresh `np`)
on the reply queue, tracking it when pipelining; store `post_proc` when in
transaction mode. -/
def execute_command (charset : Option String) (enc : String → Option String)
    (np : Nat) (c : Conn) (args : List Arg) (pp : Option Nat) :
    Except RErr SendOut :=
  if c.connected = 0 then Except.error (RErr.connectionError "Not connected")
  else
    match args.mapM (encodeArg charset enc) with
    | Except.error e => Except.error e
    | Except.ok encoded =>
      let cmds := encoded.map cmd_template
      let command := "*" ++ toString cmds.length ++ "\r\n" ++ joinStr cmds
      let cw := bufferOrWrite c command
      let cf := replyQueue_get np cw.1
      let cdone := storePostProc pp (trackPipelinedReply np cf.1)
      Except.ok { conn := cdone, writes := cw.2, promise := np, fired := cf.2 }

/-- The on-wire frame as the specification words it: `*len(A)\r\n` followed,
for each argument `a` in order, by `$len(a)\r\n a \r\n`. -/
def specWireFrame (argsA : List String) : String :=
  "*" ++ toString argsA.length ++ "\r\n" ++
    argsA.foldr (fun a acc => ("$" ++ toString a.length ++ "\r\n" ++ a ++ "\r\n") ++ acc) ""

theorem joinStr_map_cmd_template (l : List String) :
    joinStr (l.map cmd_template) =
      l.foldr (fun a acc => ("$" ++ toString a.length ++ "\r\n" ++ a ++ "\r\n") ++ acc) "" := by
  induction l with
  | nil => rfl
  | cons x xs ih =>
    simp only [List.map_cons, joinStr, List.foldr_cons, ih]
    rfl

theorem mapM_encodeArg_str (charset : Option String) (enc : String → Option String)
    (l : List String) :
    (l.map Arg.str).mapM (encodeArg charset enc) = Except.ok l := by
  induction l with
  | nil => rfl
  | cons x xs ih =>
    simp only [List.map_cons, List.mapM_cons, ih, encodeArg]
    rfl

theorem replyQueue_get_keeps (np : Nat) (c : Conn) :
    ((replyQueue_get np c).1).pipelining = c.pipelining
    ∧ ((replyQueue_get np c).1).inTransaction = c.inTransaction
    ∧ ((replyQueue_get np c).1).pipelined_commands = c.pipelined_commands := by
  unfold replyQueue_get
  cases c.replyPending with
  | nil => exact ⟨rfl, rfl, rfl⟩
  | cons v rest => exact ⟨rfl, rfl, rfl⟩

theorem trackPipelinedReply_keeps (np : Nat) (c : Conn) :
    (trackPipelinedReply np c).pipelined_commands = c.pipelined_commands
    ∧ (trackPipelinedReply np c).inTransaction = c.inTransaction := by
  unfold trackPipelinedReply
  by_cases h : c.pipelining = true
  · rw [if_pos h]; exact ⟨rfl, rfl⟩
  · rw [if_neg h]; exact ⟨rfl, rfl⟩

theorem storePostProc_keeps (pp : Option Nat) (c : Conn) :
    (storePostProc pp c).pipelined_commands = c.pipelined_commands := by
  unfold storePostProc
  by_cases h : c.inTransaction = true
  · rw [if_pos h]
  · rw [if_neg h]

theorem bufferOrWrite_pipelining (c : Conn) (command : String) :
    ((bufferOrWrite c command).1).pipelining = c.pipelining := by
  unfold bufferOrWrite
  by_cases h : c.pipelining = true
  · rw [if_pos h]
  · rw [if_neg h]

/-- C2: for a call whose arguments are already byte strings, the payload
handed to the transport — or, when pipelining, appended to the pipeline
buffer — is exactly the frame the specification describes: `*N\r\n`
followed by `$len(a)\r\n a \r\n` for each argument in call order, integers
rendered as ASCII decimal. -/
theorem trex_c2 (charset : Option String) (enc : String → Option String)
    (np : Nat) (c : Conn) (argsA : List String)
    (hconn : c.connected ≠ 0) :
    ∃ out, execute_command charset enc np c (argsA.map Arg.str) Option.none = Except.ok out
      ∧ (c.pipelining = false →
           out.writes = [specWireFrame argsA]
           ∧ out.conn.pipelined_commands = c.pipelined_commands)
      ∧ (c.pipelining = true →
           out.writes = []
           ∧ out.conn.pipelined_commands = c.pipelined_commands ++ [specWireFrame argsA]) := by
  have hframe : "*" ++ toString (argsA.map cmd_template).length ++ "\r\n" ++
      joinStr (argsA.map cmd_template) = specWireFrame argsA := by
    rw [specWireFrame, joinStr_map_cmd_template, List.length_map]
  unfold execute_command
  rw [if_neg hconn, mapM_encodeArg_str]
  refine ⟨_, rfl, ?_, ?_⟩
  · intro hp
    constructor
    · show (bufferOrWrite c _).2 = _
      rw [bufferOrWrite, if_neg (by rw [hp]; exact Bool.false_ne_true), hframe]
    · show (storePostProc _ (trackPipelinedReply np (replyQueue_get np
        (bufferOrWrite c _).1).1)).pipelined_commands = c.pipelined_commands
      rw [storePostProc_keeps, (trackPipelinedReply_keeps _ _).1,
          (replyQueue_get_keeps _ _).2.2, bufferOrWrite,
          if_neg (by rw [hp]; exact Bool.false_ne_true)]
  · intro hp
    constructor
    · show (bufferOrWrite c _).2 = _
      rw [bufferOrWrite, if_pos hp]
    · show (storePostProc _ (trackPipelinedReply np (replyQueue_get np
        (bufferOrWrite c _).1).1)).pipelined_commands = _
      rw [storePostProc_keeps, (trackPipelinedReply_keeps _ _).1,
          (replyQueue_get_keeps _ _).2.2, bufferOrWrite, if_pos hp, hframe]


/-- A connection that has completed its handshake (`connected = 1`). -/
def connReady : Conn := { Conn.init with connected := 1 }

/-- Witness for C2 on a concrete connection and argument list. -/
theorem trex_c2_witness :
    ∃ out, execute_command (Option.some "utf-8") Option.some 0 connReady
        (["SET", "k", "v"].map Arg.str) Option.none = Except.ok out
      ∧ (connReady.pipelining = false →
           out.writes = [specWireFrame ["SET", "k", "v"]]
           ∧ out.conn.pipelined_commands = connReady.pipelined_commands)
      ∧ (connReady.pipelining = true →
           out.writes = []
           ∧ out.conn.pipelined_commands =
               connReady.pipelined_commands ++ [specWireFrame ["SET", "k", "v"]]) :=
  trex_c2 (Option.some "utf-8") Option.some 0 connReady ["SET", "k", "v"] (by decide)

/-- api.py `RedisApiMixin._commit_check`, the callback chained on the EXEC
reply by `commit()`:

    if response is None:
        self.transactions = 0
        self._clear_txstate()
        raise WatchError("Transaction failed")
    else:
        return response
-/
def _commit_check (s : Sys) (response : PyVal) : Sys × Except RErr PyVal :=
  match response with
  | PyVal.none =>
    let s := { s with conn := { s.conn with transactions := 0 } }
    let s := clear_txstate s
    (s, Except.error (RErr.watchError "Transaction failed"))
  | r => (s, Except.ok r)

/-- api.py `RedisApiMixin.commit`: raises RedisError when not in transaction
mode, otherwise sends EXEC (whose reply promise gets `_commit_check`
chained on it). -/
def commit_send (charset : Option String) (enc : String → Option String)
    (np : Nat) (c : Conn) : Conn × Except RErr Nat :=
  if c.inTransaction = false then
    (c, Except.error (RErr.redisError "Not in transaction"))
  else
    match execute_command charset enc np c [Arg.str "EXEC"] Option.none with
    | Except.error e => (c, Except.error e)
    | Except.ok out => (out.conn, Except.ok out.promise)

/-- C3: when `commit()` runs on a connection in transaction mode, the EXEC
send succeeds, and if the EXEC reply is nil the chained `_commit_check`
rejects the commit promise with WatchError("Transaction failed"), resets
the queued-command counter to 0, clears `inTransaction`, and puts the
connection back on the factory's free-connection queue. -/
theorem trex_c3 (charset : Option String) (enc : String → Option String)
    (np : Nat) (s : Sys) (ht : s.conn.inTransaction = true)
    (hconn : s.conn.connected ≠ 0) :
    (∃ c2 pid, commit_send charset enc np s.conn = (c2, Except.ok pid))
    ∧ (_commit_check s PyVal.none).2 = Except.error (RErr.watchError "Transaction failed")
    ∧ (_commit_check s PyVal.none).1.conn.transactions = 0
    ∧ (_commit_check s PyVal.none).1.conn.inTransaction = false
    ∧ (_commit_check s PyVal.none).1.freeQueue = s.freeQueue ++ [selfId] := by
  have hcc : (_commit_check s PyVal.none).1 =
      clear_txstate { s with conn := { s.conn with transactions := 0 } } := rfl
  have hclear : clear_txstate { s with conn := { s.conn with transactions := 0 } } =
      { conn := { s.conn with transactions := 0, inTransaction := false },
        freeQueue := s.freeQueue ++ [selfId] } := by
    unfold clear_txstate
    rw [if_pos]
    exact ht
  refine ⟨?_, rfl, ?_, ?_, ?_⟩
  · unfold commit_send
    rw [if_neg (by rw [ht]; simp)]
    have henc : ([Arg.str "EXEC"] : List Arg).mapM (encodeArg charset enc) =
        Except.ok ["EXEC"] := rfl
    unfold execute_command
    rw [if_neg hconn, henc]
    exact ⟨_, _, rfl⟩
  · rw [hcc, hclear]
  · rw [hcc, hclear]
  · rw [hcc, hclear]

/-- Witness for C3 on a concrete in-transaction state. -/
theorem trex_c3_witness :
    ((∃ c2 pid, commit_send (Option.some "utf-8") Option.some 4
        { connReady with inTransaction := true } = (c2, Except.ok pid))
    ∧ (_commit_check { conn := { connReady with inTransaction := true }, freeQueue := [] }
          PyVal.none).2 = Except.error (RErr.watchError "Transaction failed")
    ∧ (_commit_check { conn := { connReady with inTransaction := true }, freeQueue := [] }
          PyVal.none).1.conn.transactions = 0
    ∧ (_commit_check { conn := { connReady with inTransaction := true }, freeQueue := [] }
          PyVal.none).1.conn.inTransaction = false
    ∧ (_commit_check { conn := { connReady with inTransaction := true }, freeQueue := [] }
          PyVal.none).1.freeQueue = [] ++ [selfId]) :=
  trex_c3 (Option.some "utf-8") Option.some 4
    { conn := { connReady with inTransaction := true }, freeQueue := [] }
    (by decide) (by decide)


/-- Twisted `DeferredList(..., fireOnOneErrback=True, consumeErrors=True)`
over promises that resolve in list order (per-connection replies complete
in send order): the first error rejects the whole list, otherwise it yields
the `(success, value)` pairs. -/
def deferredListFirstError (outcomes : List (Except RErr PyVal)) :
    Except RErr (List (Bool × PyVal)) :=
  match outcomes with
  | [] => Except.ok []
  | Except.error e :: _ => Except.error e
  | Except.ok v :: rest =>
    match deferredListFirstError rest with
    | Except.error e => Except.error e
    | Except.ok l => Except.ok ((true, v) :: l)

/-- api.py `RedisApiMixin.execute_pipeline`.  `outcomes` are the eventual
results of the tracked reply promises, in issue order.  Raises RedisError
when not pipelining (before the try block, so nothing is written or reset);
otherwise writes the concatenated buffer in one transport write, awaits the
replies through a first-error-fails DeferredList, collects
`[value for success, value in results]`, and — in the `finally` block, on
success and on error alike — resets the pipelining flag and both buffers. -/
def execute_pipeline (c : Conn) (outcomes : List (Except RErr PyVal)) :
    Conn × List String × Except RErr (List PyVal) :=
  if c.pipelining = false then
    (c, [],
     Except.error (RErr.redisError
       "Not currently pipelining commands, please use pipeline() first"))
  else
    let payload := joinStr c.pipelined_commands
    let res :=
      match deferredListFirstError outcomes with
      | Except.ok results => Except.ok (results.map (fun p => p.2))
      | Except.error e => Except.error e
    ({ c with pipelining := false, pipelined_commands := [], pipelined_replies := [] },
     [payload], res)

theorem deferredListFirstError_allOk (vs : List PyVal) :
    deferredListFirstError (vs.map Except.ok) =
      Except.ok (vs.map (fun v => (true, v))) := by
  induction vs with
  | nil => rfl
  | cons v rest ih =>
    simp only [List.map_cons, deferredListFirstError, ih]

theorem deferredListFirstError_firstErr (pre : List PyVal) (e : RErr)
    (post : List (Except RErr PyVal)) :
    deferredListFirstError (pre.map Except.ok ++ Except.error e :: post) =
      Except.error e := by
  induction pre with
  | nil => rfl
  | cons v rest ih =>
    simp only [List.map_cons, List.cons_append, deferredListFirstError, List.append_eq]
    rw [ih]

/-- C4: with pipelining active, `execute_pipeline` performs exactly one
transport write, whose payload is the concatenation of the buffered frames
in issue order; it resolves with the list of reply values in issue order
when every reply succeeds, fails with the first error otherwise, and in
both cases resets the pipelining flag and both buffers. -/
theorem trex_c4 (c : Conn) (outcomes : List (Except RErr PyVal))
    (hp : c.pipelining = true)
    (hlen : outcomes.length = c.pipelined_replies.length) :
    (execute_pipeline c outcomes).2.1 = [joinStr c.pipelined_commands]
    ∧ (execute_pipeline c outcomes).1.pipelining = false
    ∧ (execute_pipeline c outcomes).1.pipelined_commands = []
    ∧ (execute_pipeline c outcomes).1.pipelined_replies = []
    ∧ (∀ (vs : List PyVal), outcomes = vs.map Except.ok →
        (execute_pipeline c outcomes).2.2 = Except.ok vs)
    ∧ (∀ (pre : List PyVal) (e : RErr) (post : List (Except RErr PyVal)),
        outcomes = pre.map Except.ok ++ Except.error e :: post →
        (execute_pipeline c outcomes).2.2 = Except.error e) := by
  have hnp : ¬(c.pipelining = false) := by rw [hp]; simp
  unfold execute_pipeline
  rw [if_neg hnp]
  refine ⟨rfl, rfl, rfl, rfl, ?_, ?_⟩
  · intro vs hvs
    subst hvs
    show (match deferredListFirstError (vs.map Except.ok) with
          | Except.ok results => Except.ok (results.map (fun p => p.2))
          | Except.error e => Except.error e) = Except.ok vs
    rw [deferredListFirstError_allOk]
    simp
  · intro pre e post hsplit
    subst hsplit
    show (match deferredListFirstError (pre.map Except.ok ++ Except.error e :: post) with
          | Except.ok results => Except.ok (results.map (fun p => p.2))
          | Except.error er => Except.error er) = Except.error e
    rw [deferredListFirstError_firstErr]

/-- Witness for C4 on a concrete pipelining connection. -/
theorem trex_c4_witness :
    ((execute_pipeline { connReady with
        pipelining := true,
        pipelined_commands := ["A", "B"],
        pipelined_replies := [0, 1] } [Except.ok (PyVal.int 1), Except.ok PyVal.none]).2.1 =
      [joinStr ["A", "B"]]
    ∧ (execute_pipeline { connReady with
        pipelining := true,
        pipelined_commands := ["A", "B"],
        pipelined_replies := [0, 1] } [Except.ok (PyVal.int 1), Except.ok PyVal.none]).1.pipelining = false
    ∧ (execute_pipeline { connReady with
        pipelining := true,
        pipelined_commands := ["A", "B"],
        pipelined_replies := [0, 1] } [Except.ok (PyVal.int 1), Except.ok PyVal.none]).1.pipelined_commands = []
    ∧ (execute_pipeline { connReady with
        pipelining := true,
        pipelined_commands := ["A", "B"],
        pipelined_replies := [0, 1] } [Except.ok (PyVal.int 1), Except.ok PyVal.none]).1.pipelined_replies = []
    ∧ (∀ (vs : List PyVal), ([Except.ok (PyVal.int 1), Except.ok PyVal.none] : List (Except RErr PyVal)) = vs.map Except.ok →
        (execute_pipeline { connReady with
          pipelining := true,
          pipelined_commands := ["A", "B"],
          pipelined_replies := [0, 1] } [Except.ok (PyVal.int 1), Except.ok PyVal.none]).2.2 = Except.ok vs)
    ∧ (∀ (pre : List PyVal) (e : RErr) (post : List (Except RErr PyVal)),
        ([Except.ok (PyVal.int 1), Except.ok PyVal.none] : List (Except RErr PyVal)) =
          pre.map Except.ok ++ Except.error e :: post →
        (execute_pipeline { connReady with
          pipelining := true,
          pipelined_commands := ["A", "B"],
          pipelined_replies := [0, 1] } [Except.ok (PyVal.int 1), Except.ok PyVal.none]).2.2 = Except.error e)) :=
  trex_c4 { connReady with
    pipelining := true,
    pipelined_commands := ["A", "B"],
    pipelined_replies := [0, 1] } [Except.ok (PyVal.int 1), Except.ok PyVal.none]
    rfl rfl

/-- connections.py, the `put_back` callback installed by
`ConnectionHandler.__getattr__`:

    def put_back(reply):
        if not connection.inTransaction:
            self._factory.connectionQueue.put(connection)
        return reply

Only `inTransaction` is tested: the pipelining flag is not consulted. -/
def put_back (s : Sys) : Sys :=
  if s.conn.inTransaction = false then
    { s with freeQueue := s.freeQueue ++ [selfId] }
  else s

/-- api.py `RedisApiMixin.pipeline`: flips the pipelining flag, clears both
buffers, and returns an already-fired deferred carrying the connection. -/
def protocol_pipeline (c : Conn) : Conn × Except RErr Unit :=
  ({ c with pipelining := true, pipelined_commands := [], pipelined_replies := [] },
   Except.ok Unit.unit)

/-- `handler.pipeline()` through `ConnectionHandler.__getattr__`: the
wrapper dequeues a connection from the free channel, calls the protocol's
`pipeline()`, and — because that deferred has already fired — `put_back`
runs at once. -/
def handler_pipeline (s : Sys) : Option Sys :=
  match s.freeQueue with
  | [] => Option.none
  | _ :: rest =>
    let s1 : Sys := { conn := (protocol_pipeline s.conn).1, freeQueue := rest }
    Option.some (put_back s1)

/-- C5 exhibits the bug: starting a pipeline session through the handler
immediately re-enqueues the connection into the free channel (put_back
checks only `inTransaction`), so a connection whose pipelining flag is true
IS present in the free channel for the whole session. -/
theorem trex_c5_failing :
    ∃ s1, handler_pipeline { conn := connReady, freeQueue := [selfId] } = Option.some s1
      ∧ s1.conn.pipelining = true
      ∧ s1.freeQueue = [selfId] :=
  ⟨_, rfl, rfl, rfl⟩

/-- `ConnectionHandler.__getattr__`'s wrapper callback.  `method` is the
effect of the looked-up protocol method on the connection together with its
synchronous outcome: `Except.error` models a synchronous raise, in which
case the wrapper re-enqueues the connection before re-raising; on success
the returned deferred continues (and `put_back` runs later, when it fires). -/
def handler_dispatch (method : Conn → Conn × Except RErr Nat) (s : Sys) :
    Option (Sys × Except RErr Nat) :=
  match s.freeQueue with
  | [] => Option.none
  | _ :: rest =>
    let mr := method s.conn
    let s1 : Sys := { conn := mr.1, freeQueue := rest }
    match mr.2 with
    | Except.error e =>
      Option.some ({ s1 with freeQueue := s1.freeQueue ++ [selfId] }, Except.error e)
    | Except.ok pid => Option.some (s1, Except.ok pid)

/-- C10: when the looked-up protocol method raises synchronously, the
wrapper puts the just-dequeued connection back on the factory's
free-connection queue and propagates the exception, so the pool does not
leak a connection (the free-channel count of the connection is unchanged
across the failed dispatch). -/
theorem trex_c10 (method : Conn → Conn × Except RErr Nat) (s : Sys)
    (rest : List Nat) (c2 : Conn) (e : RErr)
    (hq : s.freeQueue = selfId :: rest)
    (hm : method s.conn = (c2, Except.error e)) :
    handler_dispatch method s =
      Option.some ({ conn := c2, freeQueue := rest ++ [selfId] }, Except.error e)
    ∧ (rest ++ [selfId]).count selfId = s.freeQueue.count selfId := by
  constructor
  · unfold handler_dispatch
    rw [hq]
    dsimp only
    rw [hm]
  · rw [hq]
    simp [List.count_append, List.count_cons]



/-- Witness for C10: a method that raises synchronously on a pool with one
free connection. -/
theorem trex_c10_witness :
    (handler_dispatch (fun c => (c, Except.error (RErr.redisError "boom")))
        { conn := Conn.init, freeQueue := [selfId] } =
      Option.some ({ conn := Conn.init, freeQueue := [] ++ [selfId] },
        Except.error (RErr.redisError "boom"))
    ∧ ([] ++ [selfId] : List Nat).count selfId =
        ([selfId] : List Nat).count selfId) :=
  trex_c10 (fun c => (c, Except.error (RErr.redisError "boom")))
    { conn := Conn.init, freeQueue := [selfId] } [] Conn.init
    (RErr.redisError "boom") rfl rfl


/-- api.py `RedisApiMixin.watch`: the first call flips the connection into
transaction mode and installs `_clear_txstate` as the unwatch callback;
then `WATCH` is sent (a synchronous raise from `execute_command` leaves the
flag set). -/
def protocol_watch (charset : Option String) (enc : String → Option String)
    (np : Nat) (keys : List Arg) (c : Conn) : Conn × Except RErr Nat :=
  let c :=
    if c.inTransaction = false then
      { c with inTransaction := true, unwatch_cc := CC.clearTx, commit_cc := CC.noop }
    else c
  match execute_command charset enc np c (Arg.str "WATCH" :: keys) Option.none with
  | Except.error e => (c, Except.error e)
  | Except.ok out => (out.conn, Except.ok out.promise)

/-- api.py `RedisApiMixin.multi` with `keys=None`: flips the connection into
transaction mode, installs `_clear_txstate` as the commit callback, and
sends `MULTI`. -/
def protocol_multi (charset : Option String) (enc : String → Option String)
    (np : Nat) (c : Conn) : Conn × Except RErr Nat :=
  let c := { c with inTransaction := true, unwatch_cc := CC.noop, commit_cc := CC.clearTx }
  match execute_command charset enc np c [Arg.str "MULTI"] Option.none with
  | Except.error e => (c, Except.error e)
  | Except.ok out => (out.conn, Except.ok out.promise)

/-- api.py `RedisApiMixin.discard`: raises when not in transaction mode;
otherwise clears the post-proc list and the queued counter, runs
`_clear_txstate`, and sends `DISCARD`. -/
def protocol_discard (charset : Option String) (enc : String → Option String)
    (np : Nat) (s : Sys) : Sys × Except RErr Nat :=
  if s.conn.inTransaction = false then
    (s, Except.error (RErr.redisError "Not in transaction"))
  else
    let s := { s with conn := { s.conn with post_proc := [], transactions := 0 } }
    let s := clear_txstate s
    match execute_command charset enc np s.conn [Arg.str "DISCARD"] Option.none with
    | Except.error e => (s, Except.error e)
    | Except.ok out => ({ s with conn := out.conn }, Except.ok out.promise)

/-- api.py `RedisApiMixin.unwatch`: runs the stored `unwatch_cc` callback
and sends `UNWATCH`. -/
def protocol_unwatch (charset : Option String) (enc : String → Option String)
    (np : Nat) (s : Sys) : Sys × Except RErr Nat :=
  let s := s.conn.unwatch_cc.run s
  match execute_command charset enc np s.conn [Arg.str "UNWATCH"] Option.none with
  | Except.error e => (s, Except.error e)
  | Except.ok out => ({ s with conn := out.conn }, Except.ok out.promise)

/-- The protocol- and pool-level operations that touch the transaction flag
or the free-connection queue. -/
inductive Op where
  | putBackOp
  | clearTxOp
  | watchOp (keys : List Arg)
  | multiOp
  | discardOp
  | commitSendOp
  | commitResolveOp (reply : PyVal)
  | unwatchOp
  | pipelineOp
  | executePipelineOp (outcomes : List (Except RErr PyVal))
  | receiveOp (res : PyVal)
  | getConnOp (pb : Bool)

/-- The state transition of each operation.  `getConnOp pb` is
`RedisFactory.getConnection(put_back=pb)`: it dequeues the head of the free
channel and, with `put_back=True`, re-enqueues it at once. -/
def step (charset : Option String) (dec enc : String → Option String)
    (env : Nat → PyVal → PyVal) (np : Nat) (s : Sys) : Op → Sys
  | Op.putBackOp => put_back s
  | Op.clearTxOp => clear_txstate s
  | Op.watchOp keys => { s with conn := (protocol_watch charset enc np keys s.conn).1 }
  | Op.multiOp => { s with conn := (protocol_multi charset enc np s.conn).1 }
  | Op.discardOp => (protocol_discard charset enc np s).1
  | Op.commitSendOp => { s with conn := (commit_send charset enc np s.conn).1 }
  | Op.commitResolveOp r => (_commit_check s r).1
  | Op.unwatchOp => (protocol_unwatch charset enc np s).1
  | Op.pipelineOp => { s with conn := (protocol_pipeline s.conn).1 }
  | Op.executePipelineOp outs => { s with conn := (execute_pipeline s.conn outs).1 }
  | Op.receiveOp res => (processReply charset dec env s res).1
  | Op.getConnOp pb =>
    match s.freeQueue with
    | [] => s
    | c0 :: rest =>
      if pb then { s with freeQueue := rest ++ [c0] }
      else { s with freeQueue := rest }

/-- The operations whose code path contains a call to `_clear_txstate`
(directly, or through a stored `commit_cc`/`unwatch_cc` callback). -/
def usesClearTx : Op → Bool
  | Op.clearTxOp => true
  | Op.discardOp => true
  | Op.commitResolveOp _ => true
  | Op.unwatchOp => true
  | Op.receiveOp _ => true
  | _ => false

theorem bufferOrWrite_inTransaction (c : Conn) (command : String) :
    ((bufferOrWrite c command).1).inTransaction = c.inTransaction := by
  unfold bufferOrWrite
  by_cases h : c.pipelining = true
  · rw [if_pos h]
  · rw [if_neg h]

theorem storePostProc_inTransaction (pp : Option Nat) (c : Conn) :
    (storePostProc pp c).inTransaction = c.inTransaction := by
  unfold storePostProc
  by_cases h : c.inTransaction = true
  · rw [if_pos h]
  · rw [if_neg h]

theorem execute_command_ok_inTransaction (charset : Option String)
    (enc : String → Option String) (np : Nat) (c : Conn) (args : List Arg)
    (pp : Option Nat) (out : SendOut)
    (h : execute_command charset enc np c args pp = Except.ok out) :
    out.conn.inTransaction = c.inTransaction := by
  unfold execute_command at h
  by_cases hc : c.connected = 0
  · rw [if_pos hc] at h; cases h
  · rw [if_neg hc] at h
    cases hm : args.mapM (encodeArg charset enc) with
    | error e => rw [hm] at h; cases h
    | ok encoded =>
      rw [hm] at h
      cases h
      show (storePostProc pp (trackPipelinedReply np (replyQueue_get np
        (bufferOrWrite c _).1).1)).inTransaction = c.inTransaction
      rw [storePostProc_inTransaction, (trackPipelinedReply_keeps _ _).2,
          (replyQueue_get_keeps _ _).2.1, bufferOrWrite_inTransaction]

theorem execute_pipeline_fst_inTransaction (c : Conn)
    (outs : List (Except RErr PyVal)) :
    ((execute_pipeline c outs).1).inTransaction = c.inTransaction := by
  unfold execute_pipeline
  by_cases h : c.pipelining = false
  · rw [if_pos h]
  · rw [if_neg h]

theorem protocol_watch_inTransaction (charset : Option String)
    (enc : String → Option String) (np : Nat) (keys : List Arg) (c : Conn)
    (ht : c.inTransaction = true) :
    ((protocol_watch charset enc np keys c).1).inTransaction = true := by
  unfold protocol_watch
  rw [if_neg (by rw [ht]; simp)]
  dsimp only
  cases hx : execute_command charset enc np c (Arg.str "WATCH" :: keys) Option.none with
  | error e => exact ht
  | ok out =>
    show out.conn.inTransaction = true
    rw [execute_command_ok_inTransaction charset enc np c _ _ out hx]
    exact ht

theorem protocol_multi_inTransaction (charset : Option String)
    (enc : String → Option String) (np : Nat) (c : Conn) :
    ((protocol_multi charset enc np c).1).inTransaction = true := by
  unfold protocol_multi
  dsimp only
  cases hx : execute_command charset enc np
      { c with inTransaction := true, unwatch_cc := CC.noop, commit_cc := CC.clearTx }
      [Arg.str "MULTI"] Option.none with
  | error e => rfl
  | ok out =>
    show out.conn.inTransaction = true
    rw [execute_command_ok_inTransaction charset enc np _ _ _ out hx]

theorem commit_send_inTransaction (charset : Option String)
    (enc : String → Option String) (np : Nat) (c : Conn)
    (ht : c.inTransaction = true) :
    ((commit_send charset enc np c).1).inTransaction = true := by
  unfold commit_send
  rw [if_neg (by rw [ht]; simp)]
  cases hx : execute_command charset enc np c [Arg.str "EXEC"] Option.none with
  | error e => exact ht
  | ok out =>
    show out.conn.inTransaction = true
    rw [execute_command_ok_inTransaction charset enc np c _ _ out hx]
    exact ht


/-- C6 (amended): across the protocol and pool operations, the transaction
flag drops from true to false only in operations whose code path runs
`_clear_txstate`, and no operation outside that set ever adds the
connection to the free channel while it is in transaction mode; `put_back`
in particular leaves the state untouched for an in-transaction connection,
and the clear-tx path itself is what re-enqueues the connection.  (The
handler wrapper's synchronous-exception branch is the exception the
counterexample exhibits.) -/
theorem trex_c6 (charset : Option String) (dec enc : String → Option String)
    (env : Nat → PyVal → PyVal) (np : Nat) (s : Sys) (op : Op)
    (ht : s.conn.inTransaction = true) :
    (usesClearTx op = false →
       (step charset dec enc env np s op).conn.inTransaction = true
       ∧ (step charset dec enc env np s op).freeQueue.count selfId ≤
           s.freeQueue.count selfId)
    ∧ put_back s = s
    ∧ (clear_txstate s).conn.inTransaction = false
    ∧ (clear_txstate s).freeQueue = s.freeQueue ++ [selfId] := by
  have hpb : put_back s = s := by
    unfold put_back
    rw [if_neg (by rw [ht]; simp)]
  refine ⟨?_, hpb, ?_, ?_⟩
  · intro hop
    cases op with
    | putBackOp =>
      simp only [step]
      rw [hpb]
      exact ⟨ht, le_refl _⟩
    | clearTxOp => exact absurd hop (by simp [usesClearTx])
    | watchOp keys =>
      simp only [step]
      exact ⟨protocol_watch_inTransaction charset enc np keys s.conn ht, le_refl _⟩
    | multiOp =>
      simp only [step]
      exact ⟨protocol_multi_inTransaction charset enc np s.conn, le_refl _⟩
    | discardOp => exact absurd hop (by simp [usesClearTx])
    | commitSendOp =>
      simp only [step]
      exact ⟨commit_send_inTransaction charset enc np s.conn ht, le_refl _⟩
    | commitResolveOp r => exact absurd hop (by simp [usesClearTx])
    | unwatchOp => exact absurd hop (by simp [usesClearTx])
    | pipelineOp =>
      simp only [step]
      exact ⟨ht, le_refl _⟩
    | executePipelineOp outs =>
      simp only [step]
      refine ⟨?_, le_refl _⟩
      show ((execute_pipeline s.conn outs).1).inTransaction = true
      rw [execute_pipeline_fst_inTransaction]
      exact ht
    | receiveOp res => exact absurd hop (by simp [usesClearTx])
    | getConnOp pb =>
      simp only [step]
      cases hfq : s.freeQueue with
      | nil =>
        refine ⟨ht, ?_⟩
        rw [hfq]
      | cons c0 rest =>
        cases pb with
        | true =>
          refine ⟨ht, ?_⟩
          show (rest ++ [c0]).count selfId ≤ (c0 :: rest).count selfId
          exact le_of_eq (by simp [List.count_append, List.count_cons, Nat.add_comm])
        | false =>
          refine ⟨ht, ?_⟩
          show rest.count selfId ≤ (c0 :: rest).count selfId
          simp [List.count_cons]
  · unfold clear_txstate
    rw [if_pos ht]
  · unfold clear_txstate
    rw [if_pos ht]

/-- C6 counterexample: `watch()` flips the transaction flag before sending;
with a unicode key and no configured charset, `execute_command` raises
synchronously, and the handler wrapper's exception branch re-enqueues the
connection unconditionally — a site other than `_clear_txstate` that puts a
connection whose `inTransaction` flag is true back on the free channel. -/
theorem trex_c6_counterexample :
    ∃ s1 e, handler_dispatch (protocol_watch Option.none Option.some 3 [Arg.uni "k"])
        { conn := connReady, freeQueue := [selfId] } =
      Option.some (s1, Except.error e)
      ∧ s1.conn.inTransaction = true
      ∧ s1.freeQueue = [selfId] :=
  ⟨_, _, rfl, rfl, rfl⟩

/-- A pinned in-transaction system state used as a concrete witness input. -/
def txSys : Sys :=
  { conn := { connReady with inTransaction := true }, freeQueue := [] }

/-- Witness for the amended C6 on a concrete in-transaction state and the
`put_back` operation. -/
theorem trex_c6_witness :
    ((usesClearTx Op.putBackOp = false →
       (step (Option.some "utf-8") Option.some Option.some (fun _ v => v) 0 txSys
           Op.putBackOp).conn.inTransaction = true
       ∧ (step (Option.some "utf-8") Option.some Option.some (fun _ v => v) 0 txSys
           Op.putBackOp).freeQueue.count selfId ≤ txSys.freeQueue.count selfId)
    ∧ put_back txSys = txSys
    ∧ (clear_txstate txSys).conn.inTransaction = false
    ∧ (clear_txstate txSys).freeQueue = txSys.freeQueue ++ [selfId]) :=
  trex_c6 (Option.some "utf-8") Option.some Option.some (fun _ v => v) 0 txSys
    Op.putBackOp rfl



/-- connections.py: `_findhash = re.compile(r'.+\x7b(.*)\x7d.*')`, applied
with `re.match` (anchored at the start).  Both `.+` and `(.*)` are greedy,
so the match, when it exists, picks the LAST open brace that still has a
close brace after it (the longest `.+`), and the group runs to the LAST
close brace (the longest `(.*)`); `.+` also requires at least one character
before the open brace.  Scanning the reversed key: drop to the last close
brace, then to the last open brace before it; the group is what lies
between. -/
def findhash_group (s : List Char) : Option (List Char) :=
  let r1 := s.reverse.dropWhile (fun c => c != '}')
  match r1 with
  | [] => Option.none
  | _ :: afterJ =>
    match afterJ.dropWhile (fun c => c != '{') with
    | [] => Option.none
    | _ :: beforeI =>
      if beforeI.isEmpty then Option.none
      else Option.some ((afterJ.takeWhile (fun c => c != '{')).reverse)

/-- The shard-key selection of `ShardedConnectionHandler._wrap`:

    m = _findhash.match(key)
    if m is not None and len(m.groups()) >= 1:
        node = self._ring(m.groups()[0])
    else:
        node = self._ring(key)
-/
def shardKey (key : List Char) : List Char :=
  match findhash_group key with
  | Option.some g => g
  | Option.none => key

/-- The ring lookup `_wrap` performs: the node owning the shard key. -/
def wrap_route {Node : Type} (ring : List Char → Node) (key : List Char) : Node :=
  ring (shardKey key)

/-- The first brace-group of a key, read as the claim words it: the
characters between the first open brace and the first close brace after
it, when both exist. -/
def firstBraceGroup (s : List Char) : Option (List Char) :=
  match s.dropWhile (fun c => c != '{') with
  | [] => Option.none
  | _ :: rest =>
    if rest.contains '}' then Option.some (rest.takeWhile (fun c => c != '}'))
    else Option.none

theorem dropWhile_append_all {q : Char → Bool} (l1 l2 : List Char)
    (h : ∀ x ∈ l1, q x = true) :
    (l1 ++ l2).dropWhile q = l2.dropWhile q := by
  induction l1 with
  | nil => rfl
  | cons x xs ih =>
    rw [List.cons_append, List.dropWhile_cons]
    rw [h x (List.mem_cons_self x xs)]
    exact ih (fun y hy => h y (List.mem_cons_of_mem x hy))

theorem takeWhile_append_stop {q : Char → Bool} (l1 : List Char) (c : Char)
    (l2 : List Char) (h : ∀ x ∈ l1, q x = true) (hc : q c = false) :
    (l1 ++ c :: l2).takeWhile q = l1 := by
  induction l1 with
  | nil =>
    rw [List.nil_append, List.takeWhile_cons, hc]
    rfl
  | cons x xs ih =>
    rw [List.cons_append, List.takeWhile_cons]
    rw [h x (List.mem_cons_self x xs)]
    rw [ih (fun y hy => h y (List.mem_cons_of_mem x hy))]
    rfl

/-- C8 counterexample:  the key a{X}b{Y}c contains brace-groups, the first
being X, but the greedy regex routes by the LAST group Y; and the key {X}s,
whose first brace-group is X, is routed by the whole key because `.+`
demands a character before the brace. -/
theorem trex_c8_counterexample :
    firstBraceGroup ("a{X}b{Y}c".toList) = Option.some ("X".toList)
    ∧ shardKey ("a{X}b{Y}c".toList) = "Y".toList
    ∧ "Y".toList ≠ "X".toList
    ∧ firstBraceGroup ("{X}s".toList) = Option.some ("X".toList)
    ∧ shardKey ("{X}s".toList) = "{X}s".toList := by
  refine ⟨rfl, rfl, ?_, rfl, rfl⟩
  decide

/-- C8 (amended): when the key has at least one character before an open
brace that is followed by a close brace, the extracted shard key is the
substring between the last such open brace and the last close brace after
it — for keys of the shape p{X}suf with p nonempty and no stray braces
(no open brace in X, no close brace in suf), that substring is
exactly X, so the routing decision depends only on X; otherwise the whole
key is used. -/
theorem trex_c8 {Node : Type} (ring : List Char → Node)
    (p X suf : List Char) (hp : p ≠ [])
    (hX : '{' ∉ X) (hsufC : '}' ∉ suf) :
    shardKey (p ++ '{' :: (X ++ '}' :: suf)) = X
    ∧ wrap_route ring (p ++ '{' :: (X ++ '}' :: suf)) = ring X := by
  have hS1 : ∀ x ∈ suf.reverse, (x != '}') = true := by
    intro x hx
    have hm : x ∈ suf := List.mem_reverse.mp hx
    exact bne_iff_ne.mpr (fun hcontra => hsufC (hcontra ▸ hm))
  have hX1 : ∀ x ∈ X.reverse, (x != '{') = true := by
    intro x hx
    have hm : x ∈ X := List.mem_reverse.mp hx
    exact bne_iff_ne.mpr (fun hcontra => hX (hcontra ▸ hm))
  have hrev : (p ++ '{' :: (X ++ '}' :: suf)).reverse =
      suf.reverse ++ '}' :: (X.reverse ++ '{' :: p.reverse) := by
    simp [List.reverse_append, List.reverse_cons, List.append_assoc]
  have hpe : p.reverse.isEmpty = false := by
    cases hp2 : p.reverse with
    | nil => exact absurd (List.reverse_eq_nil_iff.mp hp2) hp
    | cons a b => rfl
  have hfg : findhash_group (p ++ '{' :: (X ++ '}' :: suf)) = Option.some X := by
    unfold findhash_group
    rw [hrev]
    rw [dropWhile_append_all suf.reverse _ hS1]
    rw [List.dropWhile_cons]
    simp only [bne_self_eq_false, Bool.false_eq_true, if_false]
    rw [dropWhile_append_all X.reverse _ hX1]
    rw [List.dropWhile_cons]
    simp only [bne_self_eq_false, Bool.false_eq_true, if_false]
    rw [takeWhile_append_stop X.reverse '{' p.reverse hX1 (by simp)]
    rw [List.reverse_reverse]
    rw [if_neg (by rw [hpe]; simp)]
  constructor
  · unfold shardKey
    rw [hfg]
  · unfold wrap_route shardKey
    rw [hfg]

/-- Witness for the amended C8 on concrete keys: pre{X}post routes by X. -/
theorem trex_c8_witness :
    shardKey ("pre".toList ++ '{' :: ("X".toList ++ '}' :: "post".toList)) = "X".toList
    ∧ wrap_route (fun k => k.length) ("pre".toList ++ '{' :: ("X".toList ++ '}' :: "post".toList)) =
        (fun (k : List Char) => k.length) "X".toList :=
  trex_c8 (fun k => k.length) "pre".toList "X".toList "post".toList
    (by decide) (by decide) (by decide)



/-- Insertion into a Python dict modelled as an association list:
assignment overwrites an existing key, otherwise appends. -/
def dictInsert {Node : Type} (d : List (Nat × Node)) (k : Nat) (v : Node) :
    List (Nat × Node) :=
  if d.any (fun p => p.1 == k) then
    d.map (fun p => if p.1 == k then (k, v) else p)
  else d ++ [(k, v)]

/-- Lookup in the dict model. -/
def dictGet {Node : Type} (d : List (Nat × Node)) (k : Nat) : Option Node :=
  (d.find? (fun p => p.1 == k)).map (fun p => p.2)

/-- Insertion sort on Nats, modelling Python `list.sort()`. -/
def insNat (x : Nat) : List Nat → List Nat
  | [] => [x]
  | y :: ys => if x ≤ y then x :: y :: ys else y :: insNat x ys

/-- Insertion sort on Nats, modelling Python `list.sort()`. -/
def sortNat : List Nat → List Nat
  | [] => []
  | x :: xs => insNat x (sortNat xs)

/-- connections.py `HashRing` state: the node list, the replica count, the
crc-key-to-node dict, and the sorted key list.  `zlib.crc32` is external:
`crcNode node x` models `crc32("%s:%d" % (node._factory.uuid, x))` and
`crcKey` models `crc32(key)` on lookups. -/
structure HashRing (Node : Type) where
  nodes : List Node
  replicas : Nat
  ring : List (Nat × Node)
  sorted_keys : List Nat

/-- `HashRing.add_node`: append the node, insert `replicas` virtual keys,
and re-sort the key list. -/
def HashRing.add_node {Node : Type} (crcNode : Node → Nat → Nat)
    (r : HashRing Node) (node : Node) : HashRing Node :=
  let r := { r with nodes := r.nodes ++ [node] }
  let r := (List.range r.replicas).foldl
    (fun acc x =>
      { acc with
        ring := dictInsert acc.ring (crcNode node x) node,
        sorted_keys := acc.sorted_keys ++ [crcNode node x] }) r
  { r with sorted_keys := sortNat r.sorted_keys }

/-- `HashRing.__init__(nodes, replicas)`: start empty and `add_node` each
node in order. -/
def ringFromNodes {Node : Type} (crcNode : Node → Nat → Nat) (replicas : Nat)
    (nodes : List Node) : HashRing Node :=
  nodes.foldl (HashRing.add_node crcNode)
    { nodes := [], replicas := replicas, ring := [], sorted_keys := [] }

/-- Python `bisect.bisect` (bisect_right) on a sorted list: the number of
elements that are ≤ the probe (insertion point after any equal run). -/
def bisect (a : List Nat) (x : Nat) : Nat :=
  a.countP (fun k => k ≤ x)

/-- `HashRing.get_node_pos`:

    if len(self.ring) == 0:
        return [None, None]
    crc = zlib.crc32(key)
    idx = bisect.bisect(self.sorted_keys, crc)
    idx = min(idx, (self.replicas * len(self.nodes)) - 1)
    return [self.ring[self.sorted_keys[idx]], idx]
-/
def get_node_pos {Node : Type} (crcKey : String → Nat) (r : HashRing Node)
    (key : String) : Option (Node × Nat) :=
  if r.ring.length = 0 then Option.none
  else
    let crc := crcKey key
    let idx := bisect r.sorted_keys crc
    let idx := min idx (r.replicas * r.nodes.length - 1)
    (dictGet r.ring (r.sorted_keys.getD idx 0)).map (fun n => (n, idx))

/-- `HashRing.get_node`, with the (unmodified) ring state returned
alongside to record that the lookup reads but never writes the ring. -/
def get_node_st {Node : Type} (crcKey : String → Nat) (r : HashRing Node)
    (key : String) : Option Node × HashRing Node :=
  ((get_node_pos crcKey r key).map (fun p => p.1), r)

theorem length_insNat (x : Nat) (l : List Nat) :
    (insNat x l).length = l.length + 1 := by
  induction l with
  | nil => rfl
  | cons y ys ih =>
    unfold insNat
    by_cases h : x ≤ y
    · rw [if_pos h]
      rfl
    · rw [if_neg h]
      simp [ih]

theorem length_sortNat (l : List Nat) : (sortNat l).length = l.length := by
  induction l with
  | nil => rfl
  | cons x xs ih =>
    unfold sortNat
    rw [length_insNat, ih]
    rfl

theorem dictInsert_length_pos {Node : Type} (d : List (Nat × Node)) (k : Nat)
    (v : Node) : 1 ≤ (dictInsert d k v).length := by
  unfold dictInsert
  by_cases h : d.any (fun p => p.1 == k) = true
  · rw [if_pos h]
    cases d with
    | nil => cases h
    | cons a b => simp
  · rw [if_neg h]
    simp

theorem dictInsert_length_mono {Node : Type} (d : List (Nat × Node)) (k : Nat)
    (v : Node) : d.length ≤ (dictInsert d k v).length := by
  unfold dictInsert
  by_cases h : d.any (fun p => p.1 == k) = true
  · rw [if_pos h]
    simp
  · rw [if_neg h]
    simp


theorem addRep_fold_facts {Node : Type} (crcNode : Node → Nat → Nat) (node : Node)
    (xs : List Nat) :
    ∀ (r : HashRing Node),
      ((xs.foldl (fun acc x =>
          { acc with
            ring := dictInsert acc.ring (crcNode node x) node,
            sorted_keys := acc.sorted_keys ++ [crcNode node x] }) r).sorted_keys.length
        = r.sorted_keys.length + xs.length)
      ∧ ((xs.foldl (fun acc x =>
          { acc with
            ring := dictInsert acc.ring (crcNode node x) node,
            sorted_keys := acc.sorted_keys ++ [crcNode node x] }) r).replicas = r.replicas)
      ∧ ((xs.foldl (fun acc x =>
          { acc with
            ring := dictInsert acc.ring (crcNode node x) node,
            sorted_keys := acc.sorted_keys ++ [crcNode node x] }) r).nodes = r.nodes)
      ∧ (r.ring.length ≤ (xs.foldl (fun acc x =>
          { acc with
            ring := dictInsert acc.ring (crcNode node x) node,
            sorted_keys := acc.sorted_keys ++ [crcNode node x] }) r).ring.length)
      ∧ (xs ≠ [] → 1 ≤ (xs.foldl (fun acc x =>
          { acc with
            ring := dictInsert acc.ring (crcNode node x) node,
            sorted_keys := acc.sorted_keys ++ [crcNode node x] }) r).ring.length) := by
  induction xs with
  | nil =>
    intro r
    exact ⟨by simp, rfl, rfl, le_refl _, fun h => absurd rfl h⟩
  | cons x xs ih =>
    intro r
    have ihr := ih { r with
      ring := dictInsert r.ring (crcNode node x) node,
      sorted_keys := r.sorted_keys ++ [crcNode node x] }
    rw [List.foldl_cons]
    refine ⟨?_, ihr.2.1, ihr.2.2.1, ?_, ?_⟩
    · rw [ihr.1]
      simp only [List.length_append, List.length_cons, List.length_nil]
      omega
    · exact le_trans (dictInsert_length_mono r.ring (crcNode node x) node) ihr.2.2.2.1
    · intro _
      exact le_trans (dictInsert_length_pos r.ring (crcNode node x) node) ihr.2.2.2.1

theorem add_node_facts {Node : Type} (crcNode : Node → Nat → Nat)
    (r : HashRing Node) (node : Node) :
    ((HashRing.add_node crcNode r node).sorted_keys.length =
       r.sorted_keys.length + r.replicas)
    ∧ ((HashRing.add_node crcNode r node).replicas = r.replicas)
    ∧ ((HashRing.add_node crcNode r node).nodes = r.nodes ++ [node])
    ∧ (r.ring.length ≤ (HashRing.add_node crcNode r node).ring.length)
    ∧ (0 < r.replicas → 1 ≤ (HashRing.add_node crcNode r node).ring.length) := by
  unfold HashRing.add_node
  have h := addRep_fold_facts crcNode node (List.range r.replicas)
    { r with nodes := r.nodes ++ [node] }
  refine ⟨?_, h.2.1, h.2.2.1, h.2.2.2.1, ?_⟩
  · rw [length_sortNat, h.1]
    simp
  · intro hrep
    exact h.2.2.2.2 (by simp [List.range_eq_nil]; omega)

theorem foldl_add_node_facts {Node : Type} (crcNode : Node → Nat → Nat)
    (ns : List Node) :
    ∀ (r : HashRing Node),
      ((ns.foldl (HashRing.add_node crcNode) r).replicas = r.replicas)
      ∧ ((ns.foldl (HashRing.add_node crcNode) r).nodes.length =
           r.nodes.length + ns.length)
      ∧ ((ns.foldl (HashRing.add_node crcNode) r).sorted_keys.length =
           r.sorted_keys.length + r.replicas * ns.length)
      ∧ (r.ring.length ≤ (ns.foldl (HashRing.add_node crcNode) r).ring.length)
      ∧ (ns ≠ [] → 0 < r.replicas →
           1 ≤ (ns.foldl (HashRing.add_node crcNode) r).ring.length) := by
  induction ns with
  | nil =>
    intro r
    exact ⟨rfl, by simp, by simp, le_refl _, fun h => absurd rfl h⟩
  | cons n rest ih =>
    intro r
    have hadd := add_node_facts crcNode r n
    have ihr := ih (HashRing.add_node crcNode r n)
    rw [List.foldl_cons]
    refine ⟨?_, ?_, ?_, ?_, ?_⟩
    · rw [ihr.1, hadd.2.1]
    · rw [ihr.2.1, hadd.2.2.1]
      simp only [List.length_append, List.length_cons, List.length_nil]
      omega
    · rw [ihr.2.2.1, hadd.1, hadd.2.1]
      simp only [List.length_cons]
      ring
    · exact le_trans hadd.2.2.2.1 ihr.2.2.2.1
    · intro _ hrep
      exact le_trans (hadd.2.2.2.2 hrep) ihr.2.2.2.1

/-- C9: on a ring built by `add_node` from a non-empty node list with a
positive replica count, `get_node_pos key` returns
`ring[sorted_keys[idx]]` with
`idx = min(bisect(sorted_keys, crc(key)), len(sorted_keys) - 1)` (the
code's `replicas * len(nodes) - 1` equals `len(sorted_keys) - 1`), and the
lookup leaves the ring unchanged, so the chosen node is stable across
invocations while the node set is unchanged. -/
theorem trex_c9 {Node : Type} (crcNode : Node → Nat → Nat) (crcKey : String → Nat)
    (replicas : Nat) (nodes : List Node) (hr : 0 < replicas) (hn : nodes ≠ [])
    (key : String) :
    (get_node_pos crcKey (ringFromNodes crcNode replicas nodes) key =
       (dictGet (ringFromNodes crcNode replicas nodes).ring
         ((ringFromNodes crcNode replicas nodes).sorted_keys.getD
           (min (bisect (ringFromNodes crcNode replicas nodes).sorted_keys (crcKey key))
                ((ringFromNodes crcNode replicas nodes).sorted_keys.length - 1)) 0)).map
         (fun n => (n,
           min (bisect (ringFromNodes crcNode replicas nodes).sorted_keys (crcKey key))
               ((ringFromNodes crcNode replicas nodes).sorted_keys.length - 1))))
    ∧ (get_node_st crcKey (ringFromNodes crcNode replicas nodes) key).2 =
        ringFromNodes crcNode replicas nodes := by
  have hfacts := foldl_add_node_facts crcNode nodes
    { nodes := [], replicas := replicas, ring := [], sorted_keys := [] }
  have hring : 1 ≤ (ringFromNodes crcNode replicas nodes).ring.length :=
    hfacts.2.2.2.2 hn hr
  have hlen : (ringFromNodes crcNode replicas nodes).sorted_keys.length =
      replicas * nodes.length := by
    have := hfacts.2.2.1
    simpa using this
  have hrep : (ringFromNodes crcNode replicas nodes).replicas = replicas := hfacts.1
  have hnl : (ringFromNodes crcNode replicas nodes).nodes.length = nodes.length := by
    have := hfacts.2.1
    simpa using this
  constructor
  · unfold get_node_pos
    rw [if_neg (by omega)]
    rw [hrep, hnl, ← hlen]
  · rfl

/-- Witness for C9 on a concrete two-node ring. -/
theorem trex_c9_witness :
    (get_node_pos (fun _ => 1500) (ringFromNodes (fun n x => n * 1000 + x) 2 [1, 2]) "k" =
       (dictGet (ringFromNodes (fun (n : Nat) x => n * 1000 + x) 2 [1, 2]).ring
         ((ringFromNodes (fun n x => n * 1000 + x) 2 [1, 2]).sorted_keys.getD
           (min (bisect (ringFromNodes (fun n x => n * 1000 + x) 2 [1, 2]).sorted_keys 1500)
                ((ringFromNodes (fun n x => n * 1000 + x) 2 [1, 2]).sorted_keys.length - 1)) 0)).map
         (fun n => (n,
           min (bisect (ringFromNodes (fun n x => n * 1000 + x) 2 [1, 2]).sorted_keys 1500)
               ((ringFromNodes (fun n x => n * 1000 + x) 2 [1, 2]).sorted_keys.length - 1))))
    ∧ (get_node_st (fun _ => 1500) (ringFromNodes (fun n x => n * 1000 + x) 2 [1, 2]) "k").2 =
        ringFromNodes (fun n x => n * 1000 + x) 2 [1, 2] :=
  trex_c9 (fun n x => n * 1000 + x) (fun _ => 1500) 2 [1, 2]
    (by decide) (by decide) "k"


end Trex
